import Mathlib

/-!
Verification of the chrono-matchmaking engine (`service/matcher.go`,
`storage/redis.go`, `models`): a shallow embedding of the matching logic
together with proofs about it.

Modelling conventions:
* Go `int` fields are modelled as `Int` (64-bit overflow is irrelevant at the
  magnitudes the engine handles; where a Go bound matters, such as
  `math.MaxInt`, it appears explicitly).
* Go `time.Duration` / `time.Time` values are modelled as `Int` nanosecond
  counts.  `time.Duration.Seconds()` followed by Go's `int(...)` conversion
  truncates toward zero; it is modelled by `Int.tdiv` (exact for every
  magnitude the engine meets, where the `float64` division is exact enough
  that truncation agrees).
* The Redis store is modelled by `StoreModel`: the queue contents, the
  direct player lookup, the per-player saved-match index, and failure flags
  for each kind of write.  Store writes performed by an invocation are
  recorded in an event trace (`StoreEvent`), in execution order, so that
  ordering properties (persist-before-remove) are statable.
-/

namespace Chrono

/-- Player record (`models.Player`): id, MMR rating, region, game mode,
queue-join timestamp (nanoseconds), informational level. -/
structure Player where
  ID : String
  Rating : Int
  Region : String
  GameMode : String
  JoinedAt : Int
  PlayerLevel : Int
deriving Repr, DecidableEq

/-- Match record (`models.Match`): id, ordered list of player snapshots
(value copies, matching Go's `*candidate` dereference into `[]models.Player`),
creation timestamp (nanoseconds). -/
structure Match where
  MatchID : String
  Players : List Player
  CreatedAt : Int
deriving Repr, DecidableEq

/-- Matcher configuration (`service.MatcherConfig`).  `MaxSearchTime` is a
duration in nanoseconds. -/
structure MatcherConfig where
  MaxRatingDiff : Int
  MaxSearchTime : Int
  RatingExpansionRate : Int
  PlayersPerMatch : Int
deriving Repr, DecidableEq

/-- Default configuration (`service.DefaultMatcherConfig`): base diff 200,
max search time 5 minutes, +50 rating every 30 seconds, 6 players. -/
def DefaultMatcherConfig : MatcherConfig :=
  { MaxRatingDiff := 200
    MaxSearchTime := 5 * 60 * 1000000000
    RatingExpansionRate := 50
    PlayersPerMatch := 6 }

/-- Players required for a game mode (`service.GetPlayersPerMatch`):
"1v1" needs 2, "3v3" needs 6, any other mode defaults to 6. -/
def GetPlayersPerMatch (gameMode : String) : Nat :=
  if gameMode = "1v1" then 2
  else if gameMode = "3v3" then 6
  else 6

/-- Nanoseconds per second, the divisor hidden in Go's
`time.Duration.Seconds()`. -/
def nsPerSecond : Int := 1000000000

/-- Whole seconds of a duration, truncating toward zero: models Go's
`int(waitTime.Seconds())`. -/
def durationSeconds (d : Int) : Int := Int.tdiv d nsPerSecond

/-- Dynamic rating window (`MatcherService.calculateRatingRange`): past
`MaxSearchTime` the window saturates at 1000; otherwise the base diff grows
by `RatingExpansionRate` for every started 30-second slice of the wait.
Go's `/` on `int` truncates toward zero, hence `Int.tdiv`. -/
def calculateRatingRange (cfg : MatcherConfig) (waitTime : Int) : Int :=
  if waitTime > cfg.MaxSearchTime then 1000
  else cfg.MaxRatingDiff + (Int.tdiv (durationSeconds waitTime) 30) * cfg.RatingExpansionRate

/-- Compatibility check (`MatcherService.isCompatible`): same region, same
game mode, and absolute rating difference at most the *configured*
`MaxRatingDiff` (the static base value, not the dynamic window).  Go's
`int(math.Abs(float64(p1.Rating - p2.Rating)))` is the absolute difference,
modelled by `Int.natAbs`. -/
def isCompatible (cfg : MatcherConfig) (p1 p2 : Player) : Bool :=
  if p1.Region ≠ p2.Region then false
  else if p1.GameMode ≠ p2.GameMode then false
  else decide (((p1.Rating - p2.Rating).natAbs : Int) ≤ cfg.MaxRatingDiff)

/-- Go's `math.MaxInt` on a 64-bit platform, the upper score bound
`ProcessQueue` passes to the range fetch. -/
def maxInt : Int := 9223372036854775807

/-- Store write performed by an invocation, in execution order.  `ok` records
whether the store accepted the write (`false` models a store error, which the
Go code receives and logs). -/
inductive StoreEvent where
  | save (m : Match) (ok : Bool)
  | remove (playerID : String) (ok : Bool)
deriving Repr, DecidableEq

/-- State and failure behaviour of the Redis collaborator for one invocation.
`queue` holds the queued player records in score (rating) order, across all
partitions; `playerOf` is the direct `player:{id}` lookup
(`storage.GetPlayerByID`, `none` for NotFound or error); `rangeFails` makes
the range query fail; `saveFails` / `removeFails` make the corresponding
writes fail. -/
structure StoreModel where
  /-- Modelled from the spec: `getMatchByPlayerID(playerID) -> match or
  NotFound` (§6), backed by `saveMatch(match)` which indexes the persisted
  match under every member's id.  The Go implementations
  (`storage.GetMatchByPlayerID`, `storage.SaveMatch`) are not among the
  provided source files; only their call sites in `service/matcher.go` are. -/
  savedMatchOf : String → Option Match
  playerOf : String → Option Player
  queue : List Player
  rangeFails : Bool
  saveFails : Bool
  removeFails : String → Bool

/-- Range fetch (`storage.GetPlayersInRange`): members of the
`queue:{region}:{gameMode}` sorted set whose score (rating) lies in
`[minRating, maxRating]`, in score order, at most `limit` of them
(Redis `ZRangeByScore` with `Count`). -/
def GetPlayersInRange (queue : List Player) (region gameMode : String)
    (minRating maxRating : Int) (limit : Nat) : List Player :=
  (queue.filter fun p =>
    p.Region == region && p.GameMode == gameMode &&
      decide (minRating ≤ p.Rating) && decide (p.Rating ≤ maxRating)).take limit

/-- Match id from the creation clock (`fmt.Sprintf("match_%d",
time.Now().UnixNano())`). -/
def mkMatchID (now : Int) : String := "match_" ++ toString now

/-- Candidate filtering loop of `FindMatch` (matcher.go lines 104-118):
starting from the accumulated group (seeded with the requesting player),
scan candidates in fetch order, skip the requesting player's own id, append
every candidate compatible with the requesting player, and stop as soon as
the group reaches `ppm` members. -/
def assembleGroup (cfg : MatcherConfig) (ppm : Nat) (playerID : String)
    (current : Player) : List Player → List Player → List Player
  | [], acc => acc
  | c :: cs, acc =>
    if c.ID = playerID then assembleGroup cfg ppm playerID current cs acc
    else if isCompatible cfg current c then
      if ppm ≤ (acc ++ [c]).length then acc ++ [c]
      else assembleGroup cfg ppm playerID current cs (acc ++ [c])
    else assembleGroup cfg ppm playerID current cs acc

/-- Persist-then-dequeue write sequence shared by both matchers
(matcher.go lines 128-144 and 253-269): one `SaveMatch` write, then one
`RemovePlayerFromQueue` write per group member, each write's error logged
and otherwise ignored. -/
def saveAndRemoveEvents (st : StoreModel) (m : Match) : List StoreEvent :=
  StoreEvent.save m (!st.saveFails) ::
    m.Players.map fun p => StoreEvent.remove p.ID (!(st.removeFails p.ID))

/-- On-demand matcher (`MatcherService.FindMatch`).  Returns the Go result
(`*models.Match, error`) together with the trace of store writes performed. -/
def FindMatch (cfg : MatcherConfig) (st : StoreModel) (now : Int)
    (playerID : String) : Except String Match × List StoreEvent :=
  match st.savedMatchOf playerID with
  | some savedMatch => (Except.ok savedMatch, [])
  | none =>
    match st.playerOf playerID with
    | none => (Except.error "player not found in queue", [])
    | some currentPlayer =>
      let playersPerMatch := GetPlayersPerMatch currentPlayer.GameMode
      let waitTime := now - currentPlayer.JoinedAt
      let ratingRange := calculateRatingRange cfg waitTime
      if st.rangeFails then (Except.error "failed to get candidates", [])
      else
        let candidates := GetPlayersInRange st.queue currentPlayer.Region
          currentPlayer.GameMode (currentPlayer.Rating - ratingRange)
          (currentPlayer.Rating + ratingRange) (playersPerMatch * 2)
        let matchPlayers :=
          assembleGroup cfg playersPerMatch playerID currentPlayer candidates
            [currentPlayer]
        if playersPerMatch ≤ matchPlayers.length then
          let m : Match :=
            { MatchID := mkMatchID now, Players := matchPlayers, CreatedAt := now }
          (Except.ok m, saveAndRemoveEvents st m)
        else (Except.error "no suitable match found", [])

/-- Inner grouping loop of `ProcessQueue` (matcher.go lines 228-238): scan
the whole fetched list, skip used players, append any player compatible with
the anchor (the group's first member) until the group reaches `ppm`.
Returns the group and the updated used-marker set. -/
def buildGroup (cfg : MatcherConfig) (ppm : Nat) (anchor : Player) :
    List Player → List Player → List String → List Player × List String
  | [], group, used => (group, used)
  | p :: ps, group, used =>
    if ppm ≤ group.length then (group, used)
    else if p.ID ∈ used then buildGroup cfg ppm anchor ps group used
    else if isCompatible cfg anchor p then
      buildGroup cfg ppm anchor ps (group ++ [p]) (p.ID :: used)
    else buildGroup cfg ppm anchor ps group used

/-- Marker release on a failed group (matcher.go lines 282-286): every
member of the attempted group, the anchor included, is deleted from the
used-marker set. -/
def releaseGroup (group : List Player) (used : List String) : List String :=
  used.filter fun id => !(group.map Player.ID).contains id

/-- Outer loop of `ProcessQueue` (matcher.go lines 218-287): iterate anchors
in fetch order over `rest`, building each group over the full fetched list
`players`; a full group becomes a match (persist, then dequeue each member,
members stay used), a short group releases its markers.  Returns the matches
created and the trace of store writes. -/
def processGroups (cfg : MatcherConfig) (st : StoreModel) (now : Int)
    (ppm : Nat) (players : List Player) :
    List Player → List String → List Match × List StoreEvent
  | [], _ => ([], [])
  | p :: ps, used =>
    if p.ID ∈ used then processGroups cfg st now ppm players ps used
    else
      let r := buildGroup cfg ppm p players [p] (p.ID :: used)
      if ppm ≤ r.1.length then
        let m : Match :=
          { MatchID := mkMatchID now, Players := r.1, CreatedAt := now }
        let rest := processGroups cfg st now ppm players ps r.2
        (m :: rest.1, saveAndRemoveEvents st m ++ rest.2)
      else processGroups cfg st now ppm players ps (releaseGroup r.1 r.2)

/-- Partition fetch of `ProcessQueue` (matcher.go line 206): the whole
`(region, gameMode)` queue, scores `0` through `math.MaxInt`, capped at 100
entries. -/
def processQueueFetch (st : StoreModel) (region gameMode : String) : List Player :=
  GetPlayersInRange st.queue region gameMode 0 maxInt 100

/-- Batch matcher (`MatcherService.ProcessQueue`).  Returns the Go result
(`error`, `Except.ok ()` for `nil`) together with the trace of store writes. -/
def ProcessQueue (cfg : MatcherConfig) (st : StoreModel) (now : Int)
    (region gameMode : String) : Except String Unit × List StoreEvent :=
  let playersPerMatch := GetPlayersPerMatch gameMode
  if st.rangeFails then (Except.error "failed to get players", [])
  else
    let players := processQueueFetch st region gameMode
    if players.length < playersPerMatch then (Except.ok (), [])
    else
      let r := processGroups cfg st now playersPerMatch players players []
      (Except.ok (), r.2)

/-- Player ids named in a trace's remove events, in order (the dequeues an
invocation performs, whatever their outcome). -/
def removeTargets (evs : List StoreEvent) : List String :=
  evs.filterMap fun e =>
    match e with
    | StoreEvent.remove pid _ => some pid
    | StoreEvent.save _ _ => none

/-- Ordering property of a trace: every remove is preceded by the save of a
match containing the removed player. -/
def saveBeforeRemove (evs : List StoreEvent) : Prop :=
  ∀ (i : Nat) (pid : String) (ok : Bool),
    evs[i]? = some (StoreEvent.remove pid ok) →
      ∃ (j : Nat) (m : Match) (okS : Bool), j < i ∧
        evs[j]? = some (StoreEvent.save m okS) ∧ pid ∈ m.Players.map Player.ID

/-- Window formula exactly as the spec words it:
`base + floor(t.seconds / 30) * rate`, with mathematical floor division
(`Int.fdiv`); stated for comparison against the code's truncating division. -/
def specWindowFormula (cfg : MatcherConfig) (t : Int) : Int :=
  cfg.MaxRatingDiff + (Int.fdiv (Int.fdiv t nsPerSecond) 30) * cfg.RatingExpansionRate

/-- Concrete scenario inputs used by counterexamples and witnesses. -/
def c1Current : Player :=
  { ID := "p1", Rating := 1500, Region := "EU", GameMode := "3v3", JoinedAt := 0, PlayerLevel := 1 }

/-- Candidate 290 rating points above `c1Current`. -/
def c1Near : Player :=
  { ID := "p2", Rating := 1790, Region := "EU", GameMode := "3v3", JoinedAt := 0, PlayerLevel := 1 }

/-- Candidate 310 rating points above `c1Current`. -/
def c1Far : Player :=
  { ID := "p3", Rating := 1810, Region := "EU", GameMode := "3v3", JoinedAt := 0, PlayerLevel := 1 }

/-- Requesting "1v1" player for the store scenarios. -/
def c2Cur : Player :=
  { ID := "a", Rating := 1500, Region := "EU", GameMode := "1v1", JoinedAt := 0, PlayerLevel := 1 }

/-- Compatible "1v1" candidate for the store scenarios. -/
def c2Cand : Player :=
  { ID := "b", Rating := 1510, Region := "EU", GameMode := "1v1", JoinedAt := 0, PlayerLevel := 1 }

/-- Store whose `SaveMatch` write fails while a full group is available. -/
def c2Store : StoreModel :=
  { savedMatchOf := fun _ => none
    playerOf := fun s => if s = "a" then some c2Cur else none
    queue := [c2Cur, c2Cand]
    rangeFails := false
    saveFails := true
    removeFails := fun _ => false }

/-- Healthy store with a full "1v1" group available for player "a". -/
def c4Store : StoreModel :=
  { savedMatchOf := fun _ => none
    playerOf := fun s => if s = "a" then some c2Cur else none
    queue := [c2Cur, c2Cand]
    rangeFails := false
    saveFails := false
    removeFails := fun _ => false }

/-- Match the healthy store scenario produces at clock 0. -/
def c4Match : Match :=
  { MatchID := "match_0", Players := [c2Cur, c2Cand], CreatedAt := 0 }

/-- Persisted match containing player "a", for the idempotent-requery
scenario. -/
def c6Match : Match :=
  { MatchID := "m6", Players := [c2Cur], CreatedAt := 5 }

/-- Store that already holds a persisted match for player "a". -/
def c6Store : StoreModel :=
  { savedMatchOf := fun s => if s = "a" then some c6Match else none
    playerOf := fun _ => none
    queue := []
    rangeFails := false
    saveFails := false
    removeFails := fun _ => false }

/-- Queued player with a negative rating. -/
def c8Neg : Player :=
  { ID := "n", Rating := -1, Region := "EU", GameMode := "3v3", JoinedAt := 0, PlayerLevel := 1 }

/-- Store whose "EU"/"3v3" partition holds only the negative-rating player. -/
def c8NegStore : StoreModel :=
  { savedMatchOf := fun _ => none
    playerOf := fun _ => none
    queue := [c8Neg]
    rangeFails := false
    saveFails := false
    removeFails := fun _ => false }

/-- Queued player with a small non-negative rating. -/
def c8Pos : Player :=
  { ID := "q", Rating := 5, Region := "EU", GameMode := "3v3", JoinedAt := 0, PlayerLevel := 1 }

/-- Store whose "EU"/"3v3" partition holds only `c8Pos`. -/
def c8PosStore : StoreModel :=
  { savedMatchOf := fun _ => none
    playerOf := fun _ => none
    queue := [c8Pos]
    rangeFails := false
    saveFails := false
    removeFails := fun _ => false }

/-! ## Helper lemmas -/

theorem natAbs_sub_comm (a b : Int) : (a - b).natAbs = (b - a).natAbs := by
  rw [← Int.natAbs_neg, neg_sub]

theorem isCompatible_iff (cfg : MatcherConfig) (a b : Player) :
    isCompatible cfg a b = true ↔
      a.Region = b.Region ∧ a.GameMode = b.GameMode ∧
        ((a.Rating - b.Rating).natAbs : Int) ≤ cfg.MaxRatingDiff := by
  unfold isCompatible
  by_cases h1 : a.Region = b.Region <;> by_cases h2 : a.GameMode = b.GameMode <;>
    simp [h1, h2]

theorem isCompatible_comm (cfg : MatcherConfig) (a b : Player) :
    isCompatible cfg a b = isCompatible cfg b a := by
  by_cases h : isCompatible cfg a b = true
  · have h2 := (isCompatible_iff cfg a b).mp h
    have : isCompatible cfg b a = true := by
      rw [isCompatible_iff]
      exact ⟨h2.1.symm, h2.2.1.symm, by rw [natAbs_sub_comm]; exact h2.2.2⟩
    rw [h, this]
  · have h2 : isCompatible cfg b a ≠ true := by
      intro hba
      have h3 := (isCompatible_iff cfg b a).mp hba
      exact h ((isCompatible_iff cfg a b).mpr
        ⟨h3.1.symm, h3.2.1.symm, by rw [natAbs_sub_comm]; exact h3.2.2⟩)
    simp only [ne_eq, Bool.not_eq_true] at h h2
    rw [h, h2]

theorem tdiv_le_tdiv_right {a b d : Int} (hd : 0 < d) (h : a ≤ b) :
    a.tdiv d ≤ b.tdiv d := by
  rcases le_or_lt 0 a with ha | ha
  · rw [Int.tdiv_eq_ediv ha hd.le, Int.tdiv_eq_ediv (ha.trans h) hd.le]
    exact Int.ediv_le_ediv hd h
  · rcases le_or_lt 0 b with hb | hb
    · have e1 := Int.neg_tdiv a d
      have h1 : 0 ≤ (-a).tdiv d := Int.tdiv_nonneg (by omega) hd.le
      have h2 : 0 ≤ b.tdiv d := Int.tdiv_nonneg hb hd.le
      omega
    · have hba : -b ≤ -a := by omega
      have hmono : (-b).tdiv d ≤ (-a).tdiv d := by
        rw [Int.tdiv_eq_ediv (by omega) hd.le, Int.tdiv_eq_ediv (by omega) hd.le]
        exact Int.ediv_le_ediv hd hba
      have e1 := Int.neg_tdiv a d
      have e2 := Int.neg_tdiv b d
      omega

/-! ## Claim theorems -/

/-- C1: the code evaluated at the claim's scenario.  After a 61-second wait
under the default configuration the window is indeed 300 and the candidate
290 rating points away lies inside the fetched range, but `isCompatible`
compares against the static `MaxRatingDiff` of 200, so the code rejects both
the 290-diff and the 310-diff candidates and the group stays at just the
requesting player — the claim's accepted candidate is not accepted. -/
theorem C1_code_eval :
    calculateRatingRange DefaultMatcherConfig (61 * nsPerSecond) = 300 ∧
    c1Current.Rating - 300 ≤ c1Near.Rating ∧ c1Near.Rating ≤ c1Current.Rating + 300 ∧
    c1Near ∈ GetPlayersInRange [c1Near, c1Far] c1Current.Region c1Current.GameMode
        (c1Current.Rating - 300) (c1Current.Rating + 300) 12 ∧
    isCompatible DefaultMatcherConfig c1Current c1Near = false ∧
    isCompatible DefaultMatcherConfig c1Current c1Far = false ∧
    assembleGroup DefaultMatcherConfig 6 c1Current.ID c1Current
        [c1Near, c1Far] [c1Current] = [c1Current] := by decide

/-- C3 counterexample: at wait time −31 s (clock skew), which is below
`MaxSearchTime`, the code's truncating division gives window 150 while the
spec's floor formula gives 100. -/
theorem C3_counterexample :
    -31 * nsPerSecond ≤ DefaultMatcherConfig.MaxSearchTime ∧
    calculateRatingRange DefaultMatcherConfig (-31 * nsPerSecond) = 150 ∧
    specWindowFormula DefaultMatcherConfig (-31 * nsPerSecond) = 100 ∧
    calculateRatingRange DefaultMatcherConfig (-31 * nsPerSecond) ≠
      specWindowFormula DefaultMatcherConfig (-31 * nsPerSecond) := by decide

/-- C3 (amended): for non-negative wait times up to `MaxSearchTime` the
window equals the spec's floor formula; the window is monotonically
non-decreasing over all wait times up to `MaxSearchTime` whenever the
expansion rate is non-negative; and past `MaxSearchTime` it is exactly
1000. -/
theorem C3_window_formula :
    (∀ cfg : MatcherConfig, ∀ t : Int, 0 ≤ t → t ≤ cfg.MaxSearchTime →
        calculateRatingRange cfg t = specWindowFormula cfg t) ∧
    (∀ cfg : MatcherConfig, ∀ t1 t2 : Int, 0 ≤ cfg.RatingExpansionRate →
        t1 ≤ t2 → t2 ≤ cfg.MaxSearchTime →
        calculateRatingRange cfg t1 ≤ calculateRatingRange cfg t2) ∧
    (∀ cfg : MatcherConfig, ∀ t : Int, cfg.MaxSearchTime < t →
        calculateRatingRange cfg t = 1000) := by
  refine ⟨?_, ?_, ?_⟩
  · intro cfg t ht hle
    unfold calculateRatingRange specWindowFormula durationSeconds
    rw [if_neg (by omega)]
    rw [Int.fdiv_eq_tdiv ht (by decide),
      Int.fdiv_eq_tdiv (Int.tdiv_nonneg ht (by decide)) (by decide)]
  · intro cfg t1 t2 hrate h12 h2
    unfold calculateRatingRange durationSeconds
    rw [if_neg (by omega), if_neg (by omega)]
    have m1 : Int.tdiv t1 nsPerSecond ≤ Int.tdiv t2 nsPerSecond :=
      tdiv_le_tdiv_right (by decide) h12
    have m2 : Int.tdiv (Int.tdiv t1 nsPerSecond) 30 ≤
        Int.tdiv (Int.tdiv t2 nsPerSecond) 30 :=
      tdiv_le_tdiv_right (by decide) m1
    have := mul_le_mul_of_nonneg_right m2 hrate
    omega
  · intro cfg t h
    unfold calculateRatingRange
    rw [if_pos (by omega)]

/-- C3 witness: the amended statement applied at concrete inputs under the
default configuration. -/
theorem C3_window_formula_witness :
    calculateRatingRange DefaultMatcherConfig 61000000000 =
        specWindowFormula DefaultMatcherConfig 61000000000 ∧
    calculateRatingRange DefaultMatcherConfig 0 ≤
        calculateRatingRange DefaultMatcherConfig 61000000000 ∧
    calculateRatingRange DefaultMatcherConfig 301000000000 = 1000 :=
  ⟨C3_window_formula.1 DefaultMatcherConfig 61000000000 (by decide) (by decide),
   C3_window_formula.2.1 DefaultMatcherConfig 0 61000000000 (by decide) (by decide)
     (by decide),
   C3_window_formula.2.2 DefaultMatcherConfig 301000000000 (by decide)⟩

/-- C7: the compatibility predicate is symmetric, false whenever regions or
modes differ (independent of rating), and true exactly when region and mode
match and the absolute rating difference is at most the configured max
diff. -/
theorem C7_compatible_characterization (cfg : MatcherConfig) (a b : Player) :
    isCompatible cfg a b = isCompatible cfg b a ∧
    (a.Region ≠ b.Region → isCompatible cfg a b = false) ∧
    (a.GameMode ≠ b.GameMode → isCompatible cfg a b = false) ∧
    (isCompatible cfg a b = true ↔
      a.Region = b.Region ∧ a.GameMode = b.GameMode ∧
        ((a.Rating - b.Rating).natAbs : Int) ≤ cfg.MaxRatingDiff) := by
  refine ⟨isCompatible_comm cfg a b, ?_, ?_, isCompatible_iff cfg a b⟩
  · intro hne
    cases hc : isCompatible cfg a b
    · rfl
    · exact absurd ((isCompatible_iff cfg a b).mp hc).1 hne
  · intro hne
    cases hc : isCompatible cfg a b
    · rfl
    · exact absurd ((isCompatible_iff cfg a b).mp hc).2.1 hne

/-- C7 witness: the characterization applied to two concrete players. -/
theorem C7_compatible_characterization_witness :
    isCompatible DefaultMatcherConfig c2Cur c2Cand =
        isCompatible DefaultMatcherConfig c2Cand c2Cur ∧
    (c2Cur.Region ≠ c2Cand.Region →
        isCompatible DefaultMatcherConfig c2Cur c2Cand = false) ∧
    (c2Cur.GameMode ≠ c2Cand.GameMode →
        isCompatible DefaultMatcherConfig c2Cur c2Cand = false) ∧
    (isCompatible DefaultMatcherConfig c2Cur c2Cand = true ↔
      c2Cur.Region = c2Cand.Region ∧ c2Cur.GameMode = c2Cand.GameMode ∧
        ((c2Cur.Rating - c2Cand.Rating).natAbs : Int) ≤
          DefaultMatcherConfig.MaxRatingDiff) :=
  C7_compatible_characterization DefaultMatcherConfig c2Cur c2Cand

/-- C9 counterexample: at wait time −180 s (clock skew), which is below
`MaxSearchTime`, the window under the default configuration is −100, a
negative value. -/
theorem C9_counterexample :
    calculateRatingRange DefaultMatcherConfig (-180 * nsPerSecond) = -100 ∧
    ¬ 0 ≤ calculateRatingRange DefaultMatcherConfig (-180 * nsPerSecond) := by
  decide

/-- C9 (amended): the window is non-negative for every non-negative wait
time, given non-negative configured base diff and expansion rate; for
sufficiently negative wait times it can be negative. -/
theorem C9_window_nonneg (cfg : MatcherConfig) (t : Int) (ht : 0 ≤ t)
    (hbase : 0 ≤ cfg.MaxRatingDiff) (hrate : 0 ≤ cfg.RatingExpansionRate) :
    0 ≤ calculateRatingRange cfg t := by
  unfold calculateRatingRange durationSeconds
  split
  · decide
  · have hs : 0 ≤ Int.tdiv (Int.tdiv t nsPerSecond) 30 :=
      Int.tdiv_nonneg (Int.tdiv_nonneg ht (by decide)) (by decide)
    have := mul_nonneg hs hrate
    omega

/-- C9 witness: non-negativity at a 61-second wait under the default
configuration. -/
theorem C9_window_nonneg_witness :
    0 ≤ calculateRatingRange DefaultMatcherConfig 61000000000 :=
  C9_window_nonneg DefaultMatcherConfig 61000000000 (by decide) (by decide)
    (by decide)

theorem two_le_GetPlayersPerMatch (gm : String) : 2 ≤ GetPlayersPerMatch gm := by
  unfold GetPlayersPerMatch
  split
  · exact Nat.le_refl 2
  · split
    · decide
    · decide

theorem GetPlayersPerMatch_eq (gm : String) :
    GetPlayersPerMatch gm = if gm = "1v1" then 2 else 6 := by
  unfold GetPlayersPerMatch
  split
  · simp [*]
  · split <;> simp [*]

theorem assembleGroup_append (cfg : MatcherConfig) (ppm : Nat) (pid : String)
    (cur : Player) (cs : List Player) :
    ∀ acc : List Player, ∃ t : List Player,
      assembleGroup cfg ppm pid cur cs acc = acc ++ t := by
  induction cs with
  | nil => intro acc; exact ⟨[], by simp [assembleGroup]⟩
  | cons c cs ih =>
    intro acc
    by_cases h1 : c.ID = pid
    · rcases ih acc with ⟨t, ht⟩
      exact ⟨t, by simp only [assembleGroup]; rw [if_pos h1]; exact ht⟩
    · by_cases h2 : isCompatible cfg cur c = true
      · by_cases h3 : ppm ≤ (acc ++ [c]).length
        · exact ⟨[c], by
            simp only [assembleGroup]
            rw [if_neg h1, if_pos h2, if_pos h3]⟩
        · rcases ih (acc ++ [c]) with ⟨t, ht⟩
          exact ⟨[c] ++ t, by
            simp only [assembleGroup]
            rw [if_neg h1, if_pos h2, if_neg h3, ht, List.append_assoc]⟩
      · rcases ih acc with ⟨t, ht⟩
        exact ⟨t, by simp only [assembleGroup]; rw [if_neg h1, if_neg h2]; exact ht⟩

theorem assembleGroup_length_le (cfg : MatcherConfig) (ppm : Nat) (pid : String)
    (cur : Player) (cs : List Player) :
    ∀ acc : List Player, acc.length < ppm →
      (assembleGroup cfg ppm pid cur cs acc).length ≤ ppm := by
  induction cs with
  | nil => intro acc h; simpa [assembleGroup] using Nat.le_of_lt h
  | cons c cs ih =>
    intro acc h
    simp only [assembleGroup]
    by_cases h1 : c.ID = pid
    · rw [if_pos h1]
      exact ih acc h
    · rw [if_neg h1]
      by_cases h2 : isCompatible cfg cur c = true
      · rw [if_pos h2]
        by_cases h3 : ppm ≤ (acc ++ [c]).length
        · rw [if_pos h3]
          have hl : (acc ++ [c]).length = acc.length + 1 := by simp
          omega
        · rw [if_neg h3]
          refine ih (acc ++ [c]) ?_
          have hl : (acc ++ [c]).length = acc.length + 1 := by simp
          omega
      · rw [if_neg h2]
        exact ih acc h

theorem assembleGroup_mem (cfg : MatcherConfig) (ppm : Nat) (pid : String)
    (cur : Player) (cs : List Player) :
    ∀ acc p, p ∈ assembleGroup cfg ppm pid cur cs acc →
      p ∈ acc ∨ isCompatible cfg cur p = true := by
  induction cs with
  | nil => intro acc p h; simp only [assembleGroup] at h; exact Or.inl h
  | cons c cs ih =>
    intro acc p h
    simp only [assembleGroup] at h
    by_cases h1 : c.ID = pid
    · rw [if_pos h1] at h
      exact ih acc p h
    · rw [if_neg h1] at h
      by_cases h2 : isCompatible cfg cur c = true
      · rw [if_pos h2] at h
        by_cases h3 : ppm ≤ (acc ++ [c]).length
        · rw [if_pos h3] at h
          rcases List.mem_append.mp h with h4 | h4
          · exact Or.inl h4
          · simp only [List.mem_singleton] at h4
            subst h4
            exact Or.inr h2
        · rw [if_neg h3] at h
          rcases ih (acc ++ [c]) p h with h4 | h4
          · rcases List.mem_append.mp h4 with h5 | h5
            · exact Or.inl h5
            · simp only [List.mem_singleton] at h5
              subst h5
              exact Or.inr h2
          · exact Or.inr h4
      · rw [if_neg h2] at h
        exact ih acc p h

theorem buildGroup_length_le (cfg : MatcherConfig) (ppm : Nat) (anchor : Player)
    (ps : List Player) :
    ∀ group used, group.length ≤ ppm →
      (buildGroup cfg ppm anchor ps group used).1.length ≤ ppm := by
  induction ps with
  | nil => intro group used h; simpa [buildGroup] using h
  | cons p ps ih =>
    intro group used h
    simp only [buildGroup]
    by_cases h1 : ppm ≤ group.length
    · rw [if_pos h1]
      exact h
    · rw [if_neg h1]
      by_cases h2 : p.ID ∈ used
      · rw [if_pos h2]
        exact ih group used h
      · rw [if_neg h2]
        by_cases h3 : isCompatible cfg anchor p = true
        · rw [if_pos h3]
          refine ih (group ++ [p]) (p.ID :: used) ?_
          have hl : (group ++ [p]).length = group.length + 1 := by simp
          omega
        · rw [if_neg h3]
          exact ih group used h

theorem buildGroup_mem (cfg : MatcherConfig) (ppm : Nat) (anchor : Player)
    (ps : List Player) :
    ∀ group used q, q ∈ (buildGroup cfg ppm anchor ps group used).1 →
      q ∈ group ∨ isCompatible cfg anchor q = true := by
  induction ps with
  | nil => intro group used q h; simp only [buildGroup] at h; exact Or.inl h
  | cons p ps ih =>
    intro group used q h
    simp only [buildGroup] at h
    by_cases h1 : ppm ≤ group.length
    · rw [if_pos h1] at h
      exact Or.inl h
    · rw [if_neg h1] at h
      by_cases h2 : p.ID ∈ used
      · rw [if_pos h2] at h
        exact ih group used q h
      · rw [if_neg h2] at h
        by_cases h3 : isCompatible cfg anchor p = true
        · rw [if_pos h3] at h
          rcases ih (group ++ [p]) (p.ID :: used) q h with h4 | h4
          · rcases List.mem_append.mp h4 with h5 | h5
            · exact Or.inl h5
            · simp only [List.mem_singleton] at h5
              subst h5
              exact Or.inr h3
          · exact Or.inr h4
        · rw [if_neg h3] at h
          exact ih group used q h

theorem mem_saveAndRemoveEvents_save {st : StoreModel} {m m2 : Match} {ok : Bool}
    (h : StoreEvent.save m2 ok ∈ saveAndRemoveEvents st m) : m2 = m := by
  unfold saveAndRemoveEvents at h
  rcases List.mem_cons.mp h with h1 | h1
  · cases h1
    rfl
  · rcases List.mem_map.mp h1 with ⟨p, _, hp⟩
    exact absurd hp (by simp)

theorem processGroups_save_partition (cfg : MatcherConfig) (st : StoreModel)
    (now : Int) (ppm : Nat) (players : List Player) (region gm : String)
    (h2le : 2 ≤ ppm) :
    ∀ (rest : List Player) (used : List String) (m : Match) (ok : Bool),
      (∀ q ∈ rest, q.Region = region ∧ q.GameMode = gm) →
      StoreEvent.save m ok ∈ (processGroups cfg st now ppm players rest used).2 →
      m.Players.length = ppm ∧
        ∀ p ∈ m.Players, p.Region = region ∧ p.GameMode = gm := by
  intro rest
  induction rest with
  | nil => intro used m ok _ h; simp [processGroups] at h
  | cons p ps ih =>
    intro used m ok hrest h
    simp only [processGroups] at h
    by_cases h1 : p.ID ∈ used
    · rw [if_pos h1] at h
      exact ih used m ok (fun q hq => hrest q (List.mem_cons_of_mem p hq)) h
    · rw [if_neg h1] at h
      by_cases hfull :
          ppm ≤ (buildGroup cfg ppm p players [p] (p.ID :: used)).1.length
      · rw [if_pos hfull] at h
        rcases List.mem_append.mp h with hblk | hrec
        · have hm := mem_saveAndRemoveEvents_save hblk
          subst hm
          have hanchor : p.Region = region ∧ p.GameMode = gm :=
            hrest p (List.mem_cons_self p ps)
          constructor
          · have hle := buildGroup_length_le cfg ppm p players [p] (p.ID :: used)
              (by simp; omega)
            dsimp only
            omega
          · intro q hq
            rcases buildGroup_mem cfg ppm p players [p] (p.ID :: used) q hq with
              hq1 | hq1
            · simp only [List.mem_singleton] at hq1
              subst hq1
              exact hanchor
            · have hc := (isCompatible_iff cfg p q).mp hq1
              exact ⟨hc.1 ▸ hanchor.1, hc.2.1 ▸ hanchor.2⟩
        · exact ih _ m ok (fun q hq => hrest q (List.mem_cons_of_mem p hq)) hrec
      · rw [if_neg hfull] at h
        exact ih _ m ok (fun q hq => hrest q (List.mem_cons_of_mem p hq)) h

theorem FindMatch_trace (cfg : MatcherConfig) (st : StoreModel) (now : Int)
    (pid : String) :
    ((FindMatch cfg st now pid).2 = [] ∧
      ∀ m : Match, (FindMatch cfg st now pid).1 = Except.ok m →
        st.savedMatchOf pid = some m) ∨
    ∃ cur : Player, st.playerOf pid = some cur ∧
      ∃ g : List Player,
        (∃ t : List Player, g = cur :: t) ∧
        g.length = GetPlayersPerMatch cur.GameMode ∧
        (∀ p ∈ g, p = cur ∨ isCompatible cfg cur p = true) ∧
        FindMatch cfg st now pid =
          (Except.ok { MatchID := mkMatchID now, Players := g, CreatedAt := now },
           saveAndRemoveEvents st
             { MatchID := mkMatchID now, Players := g, CreatedAt := now }) := by
  unfold FindMatch
  cases hsv : st.savedMatchOf pid with
  | some sm =>
    refine Or.inl ⟨rfl, fun m hm => ?_⟩
    dsimp only at hm
    cases hm
    rfl
  | none =>
    cases hcur : st.playerOf pid with
    | none => exact Or.inl ⟨rfl, fun m hm => absurd hm (by simp)⟩
    | some cur =>
      dsimp only
      by_cases hrf : st.rangeFails = true
      · rw [if_pos hrf]
        exact Or.inl ⟨rfl, fun m hm => absurd hm (by simp)⟩
      · rw [if_neg hrf]
        set g := assembleGroup cfg (GetPlayersPerMatch cur.GameMode) pid cur
          (GetPlayersInRange st.queue cur.Region cur.GameMode
            (cur.Rating - calculateRatingRange cfg (now - cur.JoinedAt))
            (cur.Rating + calculateRatingRange cfg (now - cur.JoinedAt))
            (GetPlayersPerMatch cur.GameMode * 2)) [cur] with hgdef
        by_cases hgr : GetPlayersPerMatch cur.GameMode ≤ g.length
        · rw [if_pos hgr]
          refine Or.inr ⟨cur, rfl, g, ?_, ?_, ?_, rfl⟩
          · rcases assembleGroup_append cfg (GetPlayersPerMatch cur.GameMode) pid
              cur _ [cur] with ⟨t, ht⟩
            exact ⟨t, by rw [hgdef, ht]; rfl⟩
          · have hle := assembleGroup_length_le cfg (GetPlayersPerMatch cur.GameMode)
              pid cur (GetPlayersInRange st.queue cur.Region cur.GameMode
                (cur.Rating - calculateRatingRange cfg (now - cur.JoinedAt))
                (cur.Rating + calculateRatingRange cfg (now - cur.JoinedAt))
                (GetPlayersPerMatch cur.GameMode * 2)) [cur]
              (by have := two_le_GetPlayersPerMatch cur.GameMode; simp; omega)
            rw [← hgdef] at hle
            omega
          · intro p hp
            rcases assembleGroup_mem cfg (GetPlayersPerMatch cur.GameMode) pid cur
              _ [cur] p (hgdef ▸ hp) with h4 | h4
            · simp only [List.mem_singleton] at h4
              exact Or.inl h4
            · exact Or.inr h4
        · rw [if_neg hgr]
          exact Or.inl ⟨rfl, fun m hm => absurd hm (by simp)⟩

theorem mem_processQueueFetch (st : StoreModel) (region gm : String) (q : Player)
    (h : q ∈ processQueueFetch st region gm) :
    q ∈ st.queue ∧ q.Region = region ∧ q.GameMode = gm ∧
      0 ≤ q.Rating ∧ q.Rating ≤ maxInt := by
  unfold processQueueFetch GetPlayersInRange at h
  have h2 := List.take_subset _ _ h
  have h3 := List.mem_filter.mp h2
  have h4 := h3.2
  simp only [Bool.and_eq_true, beq_iff_eq, decide_eq_true_eq] at h4
  exact ⟨h3.1, h4.1.1.1, h4.1.1.2, h4.1.2, h4.2⟩

/-- C4: every match either matcher produces (writes to the store) has
exactly `GetPlayersPerMatch` players for its game mode, and all its players
share one region and one game mode (the requesting player's partition for
`FindMatch`, the processed partition for `ProcessQueue`); the mode-to-size
mapping sends "1v1" to 2 and every other mode to 6. -/
theorem C4_group_size_and_homogeneity :
    (∀ gm : String, GetPlayersPerMatch gm = if gm = "1v1" then 2 else 6) ∧
    (∀ (cfg : MatcherConfig) (st : StoreModel) (now : Int) (pid : String)
        (m : Match) (ok : Bool) (cur : Player),
      st.playerOf pid = some cur →
      StoreEvent.save m ok ∈ (FindMatch cfg st now pid).2 →
      m.Players.length = GetPlayersPerMatch cur.GameMode ∧
        ∀ p ∈ m.Players, p.Region = cur.Region ∧ p.GameMode = cur.GameMode) ∧
    (∀ (cfg : MatcherConfig) (st : StoreModel) (now : Int) (region gm : String)
        (m : Match) (ok : Bool),
      StoreEvent.save m ok ∈ (ProcessQueue cfg st now region gm).2 →
      m.Players.length = GetPlayersPerMatch gm ∧
        ∀ p ∈ m.Players, p.Region = region ∧ p.GameMode = gm) := by
  refine ⟨GetPlayersPerMatch_eq, ?_, ?_⟩
  · intro cfg st now pid m ok cur hcur hmem
    rcases FindMatch_trace cfg st now pid with ⟨hnil, _⟩ |
      ⟨cur2, hcur2, g, ⟨t, hg⟩, hlen, hmemg, heq⟩
    · rw [hnil] at hmem
      exact absurd hmem (by simp)
    · rw [hcur] at hcur2
      injection hcur2 with hcur3
      subst hcur3
      rw [heq] at hmem
      have hm := mem_saveAndRemoveEvents_save hmem
      subst hm
      refine ⟨hlen, ?_⟩
      intro p hp
      rcases hmemg p hp with h4 | h4
      · subst h4
        exact ⟨rfl, rfl⟩
      · have hc := (isCompatible_iff cfg cur p).mp h4
        exact ⟨hc.1.symm, hc.2.1.symm⟩
  · intro cfg st now region gm m ok hmem
    unfold ProcessQueue at hmem
    by_cases hrf : st.rangeFails = true
    · rw [if_pos hrf] at hmem
      exact absurd hmem (by simp)
    · rw [if_neg hrf] at hmem
      dsimp only at hmem
      by_cases hlen :
          (processQueueFetch st region gm).length < GetPlayersPerMatch gm
      · rw [if_pos hlen] at hmem
        exact absurd hmem (by simp)
      · rw [if_neg hlen] at hmem
        refine processGroups_save_partition cfg st now (GetPlayersPerMatch gm)
          (processQueueFetch st region gm) region gm
          (two_le_GetPlayersPerMatch gm) (processQueueFetch st region gm) []
          m ok ?_ hmem
        intro q hq
        have h5 := mem_processQueueFetch st region gm q hq
        exact ⟨h5.2.1, h5.2.2.1⟩

/-- C4 witness: the size and homogeneity facts applied to the concrete
"1v1" scenario, for both matchers. -/
theorem C4_group_size_and_homogeneity_witness :
    GetPlayersPerMatch "1v1" = (if ("1v1" : String) = "1v1" then 2 else 6) ∧
    (c4Match.Players.length = GetPlayersPerMatch c2Cur.GameMode ∧
      ∀ p ∈ c4Match.Players, p.Region = c2Cur.Region ∧ p.GameMode = c2Cur.GameMode) ∧
    (c4Match.Players.length = GetPlayersPerMatch "1v1" ∧
      ∀ p ∈ c4Match.Players, p.Region = "EU" ∧ p.GameMode = "1v1") :=
  ⟨C4_group_size_and_homogeneity.1 "1v1",
   C4_group_size_and_homogeneity.2.1 DefaultMatcherConfig c4Store 0 "a" c4Match
     true c2Cur (by decide) (by decide),
   C4_group_size_and_homogeneity.2.2 DefaultMatcherConfig c4Store 0 "EU" "1v1"
     c4Match true (by decide)⟩

/-- C10: when `FindMatch` assembles a new group (no saved match for the
player, player present in the queue), the requesting player's record is the
first element of the returned match's player list.  The list holds the
records as values: the embedding models Go's snapshot copies
(`*currentPlayer`, `*candidate`) by value semantics. -/
theorem C10_requester_first (cfg : MatcherConfig) (st : StoreModel) (now : Int)
    (pid : String) (m : Match) (cur : Player)
    (hsv : st.savedMatchOf pid = none)
    (hcur : st.playerOf pid = some cur)
    (hres : (FindMatch cfg st now pid).1 = Except.ok m) :
    m.Players.head? = some cur := by
  rcases FindMatch_trace cfg st now pid with ⟨_, hok⟩ |
    ⟨cur2, hcur2, g, ⟨t, hg⟩, _, _, heq⟩
  · rw [hok m hres] at hsv
    exact absurd hsv (by simp)
  · rw [hcur] at hcur2
    injection hcur2 with hcur3
    subst hcur3
    rw [heq] at hres
    injection hres with hres2
    subst hres2
    rw [hg]
    rfl

/-- C10 witness: the concrete "1v1" scenario, where the requesting player
"a" heads the produced match's player list. -/
theorem C10_requester_first_witness : c4Match.Players.head? = some c2Cur :=
  C10_requester_first DefaultMatcherConfig c4Store 0 "a" c4Match c2Cur
    (by decide) (by decide) (by rfl)

/-- C6: if the store already holds a persisted match for the player (the
saved-match index returns it), `FindMatch` returns exactly that match with
an empty write trace — so the store is unchanged, a second call at any later
clock returns the identical match, and no second match is created (no save
write occurs in either call).  The saved-match index is modelled from the
spec (§6), since `storage.GetMatchByPlayerID` / `storage.SaveMatch` are not
among the provided sources. -/
theorem C6_idempotent_requery (cfg : MatcherConfig) (st : StoreModel)
    (now now2 : Int) (pid : String) (m : Match)
    (h : st.savedMatchOf pid = some m) :
    FindMatch cfg st now pid = (Except.ok m, []) ∧
    FindMatch cfg st now2 pid = (Except.ok m, []) := by
  constructor <;> (unfold FindMatch; rw [h])

/-- C6 witness: the concrete store holding a persisted match for player
"a"; calls at clocks 0 and 99 both return it, with no writes. -/
theorem C6_idempotent_requery_witness :
    FindMatch DefaultMatcherConfig c6Store 0 "a" = (Except.ok c6Match, []) ∧
    FindMatch DefaultMatcherConfig c6Store 99 "a" = (Except.ok c6Match, []) :=
  C6_idempotent_requery DefaultMatcherConfig c6Store 0 99 "a" c6Match (by decide)

theorem removeTargets_append (a b : List StoreEvent) :
    removeTargets (a ++ b) = removeTargets a ++ removeTargets b := by
  unfold removeTargets
  exact List.filterMap_append a b _

theorem removeTargets_saveAndRemoveEvents (st : StoreModel) (m : Match) :
    removeTargets (saveAndRemoveEvents st m) = m.Players.map Player.ID := by
  unfold removeTargets saveAndRemoveEvents
  rw [List.filterMap_cons]
  dsimp only
  induction m.Players with
  | nil => rfl
  | cons p l ih => rw [List.map_cons, List.filterMap_cons, List.map_cons, ih]

theorem FindMatch_congr (cfg : MatcherConfig) (now : Int) (pid : String)
    (st st2 : StoreModel)
    (h1 : st.savedMatchOf = st2.savedMatchOf) (h2 : st.playerOf = st2.playerOf)
    (h3 : st.queue = st2.queue) (h4 : st.rangeFails = st2.rangeFails) :
    (FindMatch cfg st now pid).1 = (FindMatch cfg st2 now pid).1 ∧
    removeTargets (FindMatch cfg st now pid).2 =
      removeTargets (FindMatch cfg st2 now pid).2 := by
  unfold FindMatch
  rw [h1, h2, h3, h4]
  cases st2.savedMatchOf pid with
  | some sm => exact ⟨rfl, rfl⟩
  | none =>
    cases st2.playerOf pid with
    | none => exact ⟨rfl, rfl⟩
    | some cur =>
      dsimp only
      cases hrf : st2.rangeFails with
      | true => exact ⟨rfl, rfl⟩
      | false =>
        rw [if_neg Bool.false_ne_true, if_neg Bool.false_ne_true]
        by_cases hgr : GetPlayersPerMatch cur.GameMode ≤
            (assembleGroup cfg (GetPlayersPerMatch cur.GameMode) pid cur
              (GetPlayersInRange st2.queue cur.Region cur.GameMode
                (cur.Rating - calculateRatingRange cfg (now - cur.JoinedAt))
                (cur.Rating + calculateRatingRange cfg (now - cur.JoinedAt))
                (GetPlayersPerMatch cur.GameMode * 2)) [cur]).length
        · rw [if_pos hgr, if_pos hgr]
          exact ⟨rfl, by
            rw [removeTargets_saveAndRemoveEvents, removeTargets_saveAndRemoveEvents]⟩
        · rw [if_neg hgr, if_neg hgr]
          exact ⟨rfl, rfl⟩

theorem processGroups_congr (cfg : MatcherConfig) (now : Int) (ppm : Nat)
    (players : List Player) (st st2 : StoreModel) :
    ∀ (rest : List Player) (used : List String),
      (processGroups cfg st now ppm players rest used).1 =
        (processGroups cfg st2 now ppm players rest used).1 ∧
      removeTargets (processGroups cfg st now ppm players rest used).2 =
        removeTargets (processGroups cfg st2 now ppm players rest used).2 := by
  intro rest
  induction rest with
  | nil => intro used; exact ⟨rfl, rfl⟩
  | cons p ps ih =>
    intro used
    simp only [processGroups]
    by_cases h1 : p.ID ∈ used
    · rw [if_pos h1, if_pos h1]
      exact ih used
    · rw [if_neg h1, if_neg h1]
      by_cases hfull :
          ppm ≤ (buildGroup cfg ppm p players [p] (p.ID :: used)).1.length
      · rw [if_pos hfull, if_pos hfull]
        refine ⟨?_, ?_⟩
        · dsimp only
          rw [(ih _).1]
        · dsimp only
          rw [removeTargets_append, removeTargets_append,
            removeTargets_saveAndRemoveEvents, removeTargets_saveAndRemoveEvents,
            (ih _).2]
      · rw [if_neg hfull, if_neg hfull]
        exact ih _

theorem ProcessQueue_congr (cfg : MatcherConfig) (now : Int) (region gm : String)
    (st st2 : StoreModel)
    (h3 : st.queue = st2.queue) (h4 : st.rangeFails = st2.rangeFails) :
    (ProcessQueue cfg st now region gm).1 = (ProcessQueue cfg st2 now region gm).1 ∧
    removeTargets (ProcessQueue cfg st now region gm).2 =
      removeTargets (ProcessQueue cfg st2 now region gm).2 := by
  unfold ProcessQueue processQueueFetch
  rw [h3, h4]
  cases hrf : st2.rangeFails with
  | true => exact ⟨rfl, rfl⟩
  | false =>
    rw [if_neg Bool.false_ne_true, if_neg Bool.false_ne_true]
    dsimp only
    by_cases hlen : (GetPlayersInRange st2.queue region gm 0 maxInt 100).length <
        GetPlayersPerMatch gm
    · rw [if_pos hlen, if_pos hlen]
      exact ⟨rfl, rfl⟩
    · rw [if_neg hlen, if_neg hlen]
      exact ⟨rfl, (processGroups_congr cfg now _ _ st st2 _ _).2⟩

theorem saveBeforeRemove_nil : saveBeforeRemove [] := by
  intro i pid ok h
  simp at h

theorem saveBeforeRemove_block (st : StoreModel) (m : Match) :
    saveBeforeRemove (saveAndRemoveEvents st m) := by
  intro i pid ok h
  have hform : saveAndRemoveEvents st m =
      StoreEvent.save m (!st.saveFails) ::
        m.Players.map (fun p => StoreEvent.remove p.ID (!(st.removeFails p.ID))) :=
    rfl
  rw [hform] at h
  cases i with
  | zero =>
    rw [List.getElem?_cons_zero] at h
    exact absurd h (by simp)
  | succ k =>
    rw [List.getElem?_cons_succ, List.getElem?_map] at h
    cases hk : m.Players[k]? with
    | none => rw [hk] at h; exact absurd h (by simp)
    | some p =>
      rw [hk] at h
      simp only [Option.map_some', Option.some.injEq, StoreEvent.remove.injEq] at h
      refine ⟨0, m, !st.saveFails, Nat.succ_pos k, ?_, ?_⟩
      · rw [hform, List.getElem?_cons_zero]
      · exact h.1 ▸ List.mem_map.mpr ⟨p, List.getElem?_mem hk, rfl⟩

theorem saveBeforeRemove_append {a b : List StoreEvent}
    (ha : saveBeforeRemove a) (hb : saveBeforeRemove b) :
    saveBeforeRemove (a ++ b) := by
  intro i pid ok h
  by_cases hi : i < a.length
  · rw [List.getElem?_append_left hi] at h
    rcases ha i pid ok h with ⟨j, m, okS, hj, hjget, hmem⟩
    have hj2 : j < a.length := lt_trans hj hi
    exact ⟨j, m, okS, hj, by rw [List.getElem?_append_left hj2]; exact hjget, hmem⟩
  · push_neg at hi
    rw [List.getElem?_append_right hi] at h
    rcases hb (i - a.length) pid ok h with ⟨j, m, okS, hj, hjget, hmem⟩
    refine ⟨j + a.length, m, okS, by omega, ?_, hmem⟩
    rw [List.getElem?_append_right (by omega)]
    simpa [Nat.add_sub_cancel] using hjget

theorem FindMatch_saveBeforeRemove (cfg : MatcherConfig) (st : StoreModel)
    (now : Int) (pid : String) :
    saveBeforeRemove (FindMatch cfg st now pid).2 := by
  rcases FindMatch_trace cfg st now pid with ⟨hnil, _⟩ | ⟨cur, _, g, _, _, _, heq⟩
  · rw [hnil]
    exact saveBeforeRemove_nil
  · rw [heq]
    exact saveBeforeRemove_block st _

theorem processGroups_saveBeforeRemove (cfg : MatcherConfig) (st : StoreModel)
    (now : Int) (ppm : Nat) (players : List Player) :
    ∀ (rest : List Player) (used : List String),
      saveBeforeRemove (processGroups cfg st now ppm players rest used).2 := by
  intro rest
  induction rest with
  | nil => intro used; exact saveBeforeRemove_nil
  | cons p ps ih =>
    intro used
    simp only [processGroups]
    by_cases h1 : p.ID ∈ used
    · rw [if_pos h1]
      exact ih used
    · rw [if_neg h1]
      by_cases hfull :
          ppm ≤ (buildGroup cfg ppm p players [p] (p.ID :: used)).1.length
      · rw [if_pos hfull]
        exact saveBeforeRemove_append (saveBeforeRemove_block st _) (ih _)
      · rw [if_neg hfull]
        exact ih _

theorem ProcessQueue_saveBeforeRemove (cfg : MatcherConfig) (st : StoreModel)
    (now : Int) (region gm : String) :
    saveBeforeRemove (ProcessQueue cfg st now region gm).2 := by
  unfold ProcessQueue
  by_cases hrf : st.rangeFails = true
  · rw [if_pos hrf]
    exact saveBeforeRemove_nil
  · rw [if_neg hrf]
    dsimp only
    by_cases hlen : (processQueueFetch st region gm).length < GetPlayersPerMatch gm
    · rw [if_pos hlen]
      exact saveBeforeRemove_nil
    · rw [if_neg hlen]
      exact processGroups_saveBeforeRemove cfg st now _ _ _ _

/-- C5: in both matchers, every dequeue write in an invocation's store trace
is strictly preceded by the persist write of a match containing the dequeued
player, and the invocation's result does not depend on dequeue failures —
removal errors are tolerated and never withhold the produced match. -/
theorem C5_persist_before_remove :
    (∀ (cfg : MatcherConfig) (st : StoreModel) (now : Int) (pid : String),
      saveBeforeRemove (FindMatch cfg st now pid).2 ∧
      ∀ f : String → Bool,
        (FindMatch cfg {st with removeFails := f} now pid).1 =
          (FindMatch cfg st now pid).1) ∧
    (∀ (cfg : MatcherConfig) (st : StoreModel) (now : Int) (region gm : String),
      saveBeforeRemove (ProcessQueue cfg st now region gm).2 ∧
      ∀ f : String → Bool,
        (ProcessQueue cfg {st with removeFails := f} now region gm).1 =
          (ProcessQueue cfg st now region gm).1) :=
  ⟨fun cfg st now pid =>
    ⟨FindMatch_saveBeforeRemove cfg st now pid,
     fun f =>
      (FindMatch_congr cfg now pid {st with removeFails := f} st rfl rfl rfl rfl).1⟩,
   fun cfg st now region gm =>
    ⟨ProcessQueue_saveBeforeRemove cfg st now region gm,
     fun f =>
      (ProcessQueue_congr cfg now region gm {st with removeFails := f} st rfl rfl).1⟩⟩

/-- C5 witness: the ordering property and removal-failure tolerance at the
concrete "1v1" scenario (with a store whose every dequeue fails). -/
theorem C5_persist_before_remove_witness :
    saveBeforeRemove (FindMatch DefaultMatcherConfig c4Store 0 "a").2 ∧
    (FindMatch DefaultMatcherConfig
        {c4Store with removeFails := fun _ => true} 0 "a").1 =
      (FindMatch DefaultMatcherConfig c4Store 0 "a").1 :=
  ⟨(C5_persist_before_remove.1 DefaultMatcherConfig c4Store 0 "a").1,
   (C5_persist_before_remove.1 DefaultMatcherConfig c4Store 0 "a").2
     (fun _ => true)⟩

/-- C2 counterexample: with a store whose `SaveMatch` write fails
(`saveFails = true`) and a full "1v1" group available, `FindMatch`
nevertheless returns a successful match and still issues the dequeue writes
for both members — refuting the claim that the call does not return a
successful match and does not remove the members. -/
theorem C2_counterexample :
    c2Store.saveFails = true ∧
    (FindMatch DefaultMatcherConfig c2Store 0 "a").1 = Except.ok c4Match ∧
    removeTargets (FindMatch DefaultMatcherConfig c2Store 0 "a").2 = ["a", "b"] :=
  ⟨rfl, rfl, rfl⟩

/-- C2 (amended): a `saveMatch` failure is logged, not propagated — both
matchers return the same result and issue the same dequeue writes whether or
not the save write fails. -/
theorem C2_save_failure_not_propagated :
    (∀ (cfg : MatcherConfig) (st : StoreModel) (now : Int) (pid : String)
        (b1 b2 : Bool),
      (FindMatch cfg {st with saveFails := b1} now pid).1 =
        (FindMatch cfg {st with saveFails := b2} now pid).1 ∧
      removeTargets (FindMatch cfg {st with saveFails := b1} now pid).2 =
        removeTargets (FindMatch cfg {st with saveFails := b2} now pid).2) ∧
    (∀ (cfg : MatcherConfig) (st : StoreModel) (now : Int) (region gm : String)
        (b1 b2 : Bool),
      (ProcessQueue cfg {st with saveFails := b1} now region gm).1 =
        (ProcessQueue cfg {st with saveFails := b2} now region gm).1 ∧
      removeTargets (ProcessQueue cfg {st with saveFails := b1} now region gm).2 =
        removeTargets (ProcessQueue cfg {st with saveFails := b2} now region gm).2) :=
  ⟨fun cfg st now pid b1 b2 =>
    FindMatch_congr cfg now pid {st with saveFails := b1} {st with saveFails := b2}
      rfl rfl rfl rfl,
   fun cfg st now region gm b1 b2 =>
    ProcessQueue_congr cfg now region gm {st with saveFails := b1}
      {st with saveFails := b2} rfl rfl⟩

/-- C2 witness: the amended statement at the concrete "1v1" scenario, with
the save write failing versus succeeding. -/
theorem C2_save_failure_not_propagated_witness :
    (FindMatch DefaultMatcherConfig {c4Store with saveFails := true} 0 "a").1 =
      (FindMatch DefaultMatcherConfig {c4Store with saveFails := false} 0 "a").1 ∧
    removeTargets
        (FindMatch DefaultMatcherConfig {c4Store with saveFails := true} 0 "a").2 =
      removeTargets
        (FindMatch DefaultMatcherConfig {c4Store with saveFails := false} 0 "a").2 :=
  C2_save_failure_not_propagated.1 DefaultMatcherConfig c4Store 0 "a" true false

/-- C8 counterexample: a queued "EU"/"3v3" player with rating −1.  The
partition holds exactly one player, well within the fetch cap of 100, yet
the batch fetch — which queries scores in [0, MaxInt] — does not include the
player. -/
theorem C8_counterexample :
    c8Neg ∈ c8NegStore.queue ∧
    c8Neg.Region = "EU" ∧ c8Neg.GameMode = "3v3" ∧
    (c8NegStore.queue.filter fun p =>
        p.Region == "EU" && p.GameMode == "3v3").length ≤ 100 ∧
    c8Neg ∉ processQueueFetch c8NegStore "EU" "3v3" := by decide

/-- C8 (amended): every player queued in the partition whose rating is
non-negative (and within the machine integer range) is included in the
batch fetch whenever the partition holds at most 100 players; and when the
fetch yields fewer than the required group size, `ProcessQueue` returns
without error and performs no store writes. -/
theorem C8_full_partition_scan :
    (∀ (st : StoreModel) (region gm : String) (p : Player),
      p ∈ st.queue → p.Region = region → p.GameMode = gm →
      0 ≤ p.Rating → p.Rating ≤ maxInt →
      (st.queue.filter fun q =>
          q.Region == region && q.GameMode == gm).length ≤ 100 →
      p ∈ processQueueFetch st region gm) ∧
    (∀ (cfg : MatcherConfig) (st : StoreModel) (now : Int) (region gm : String),
      st.rangeFails = false →
      (processQueueFetch st region gm).length < GetPlayersPerMatch gm →
      ProcessQueue cfg st now region gm = (Except.ok (), [])) := by
  constructor
  · intro st region gm p hq hr hg hmin hmax hcap
    unfold processQueueFetch GetPlayersInRange
    have hmemf : p ∈ st.queue.filter (fun q =>
        q.Region == region && q.GameMode == gm &&
          decide (0 ≤ q.Rating) && decide (q.Rating ≤ maxInt)) := by
      rw [List.mem_filter]
      refine ⟨hq, ?_⟩
      simp [hr, hg, hmin, hmax]
    have hsub : (st.queue.filter (fun q =>
        q.Region == region && q.GameMode == gm &&
          decide (0 ≤ q.Rating) && decide (q.Rating ≤ maxInt))).Sublist
        (st.queue.filter fun q => q.Region == region && q.GameMode == gm) := by
      apply List.monotone_filter_right
      intro a ha
      simp only [Bool.and_eq_true, beq_iff_eq, decide_eq_true_eq] at ha ⊢
      exact ⟨ha.1.1.1, ha.1.1.2⟩
    have hlen := hsub.length_le
    rw [List.take_of_length_le (by omega)]
    exact hmemf
  · intro cfg st now region gm hrf hlen
    unfold ProcessQueue
    rw [hrf, if_neg Bool.false_ne_true]
    dsimp only
    rw [if_pos hlen]

/-- C8 witness: the non-negative-rating player is fetched, and the
one-player partition makes `ProcessQueue` return without error and without
writes. -/
theorem C8_full_partition_scan_witness :
    c8Pos ∈ processQueueFetch c8PosStore "EU" "3v3" ∧
    ProcessQueue DefaultMatcherConfig c8PosStore 0 "EU" "3v3" =
      (Except.ok (), []) :=
  ⟨C8_full_partition_scan.1 c8PosStore "EU" "3v3" c8Pos (by decide) (by decide)
     (by decide) (by decide) (by decide) (by decide),
   C8_full_partition_scan.2 DefaultMatcherConfig c8PosStore 0 "EU" "3v3"
     (by decide) (by decide)⟩

end Chrono
